import Mathlib

/-!
Verification of `tutorials/sphinx-tutorials/torchrl_demo.py`.

The repository ships only this tutorial script; the torchrl library it
exercises lives outside `src/`.  Script-level constructs (the
`ConcatModule` subclass, the two rollout loops, the sum-tree printing
loop, the sequence of library calls) are embedded directly from the
source.  Library internals that the claims depend on (linear layers,
`env.rollout`, the replay-buffer length behaviour, the `safe=True`
projection) are modelled from the spec, with their doc comments saying
so.  Tensors are modelled as lists of rationals; a 1-D tensor is
`List Rat`, and `torch.cat(_, -1)` on 1-D tensors is list concatenation.
-/

namespace TorchRLDemo

/-- Modelled from the spec: `torch.cat(ts, -1)` for 1-D tensors (the
external library's concatenation along the last dimension), absent from
`src/`.  For 1-D tensors it concatenates the lists in order. -/
def torchCat (ts : List (List Rat)) : List Rat :=
  ts.foldr (fun t acc => t ++ acc) []

/-- Dot product of two 1-D tensors (zero-padded to the shorter length,
as `zipWith` truncates). -/
def dot (xs ys : List Rat) : Rat :=
  (List.zipWith (fun a b => a * b) xs ys).sum

/-- Modelled from the spec: `torch.nn.Linear.forward`, the external
library's affine map `x ↦ W x + b`, absent from `src/`.  Row `i` of the
output is `dot (W i) x + b i`. -/
def linearForward (W : List (List Rat)) (b : List Rat) (x : List Rat) : List Rat :=
  (List.zip W b).map (fun wb => dot wb.1 x + wb.2)

/-- The script's only locally defined class (`torchrl_demo.py`
lines 542-546): a subclass of `nn.Linear`, so its data is a weight
matrix and a bias vector. -/
structure ConcatModule where
  weight : List (List Rat)
  bias : List Rat

/-- The method `ConcatModule.forward` from the source (line 543-544):
`return super().forward(torch.cat([obs, action], -1))`. -/
def ConcatModule.forward (m : ConcatModule) (obs action : List Rat) : List Rat :=
  linearForward m.weight m.bias (torchCat [obs, action])

/-- The spec-side composition for claim C1: the library's
`nn.Linear.forward` applied to the concatenation of `obs` and `action`
along the last dimension. -/
def linearOfCat (m : ConcatModule) (obs action : List Rat) : List Rat :=
  linearForward m.weight m.bias (obs ++ action)

/-- Claim C1: `ConcatModule.forward(obs, action)` equals the library's
`nn.Linear.forward` applied to `torch.cat([obs, action], -1)`: the class
computes nothing original, being extensionally a composition of library
primitives. -/
theorem concatModule_forward_is_linear_of_cat
    (m : ConcatModule) (obs action : List Rat) :
    m.forward obs action = linearOfCat m obs action := by
  unfold ConcatModule.forward linearOfCat torchCat
  simp

/-- A bounded tensor spec, from the script's
`NdBoundedTensorSpec(-torch.ones(3), torch.ones(3))` (line 335): a box
given by componentwise lower and upper bounds. -/
structure NdBoundedTensorSpec where
  low : List Rat
  high : List Rat

/-- The concrete spec of line 335: bounds `-ones(3)` and `ones(3)`. -/
def pendulumSpec : NdBoundedTensorSpec :=
  ⟨List.replicate 3 (-1), List.replicate 3 1⟩

/-- Modelled from the spec: the projection a `safe=True`
`TensorDictModule` applies (source comment line 344: `safe=True projects
the result within the set`); the library code is absent from `src/`.
Each component is clamped between the corresponding bounds. -/
def NdBoundedTensorSpec.project (spec : NdBoundedTensorSpec) (x : List Rat) : List Rat :=
  (List.zip (List.zip spec.low spec.high) x).map
    (fun p => max p.1.1 (min p.1.2 p.2))

/-- The `safe=True` module of lines 336-337: a linear layer followed by
projection into the spec. -/
def safeModuleAction (spec : NdBoundedTensorSpec) (W : List (List Rat)) (b : List Rat)
    (obs : List Rat) : List Rat :=
  spec.project (linearForward W b obs)

/-- Claim C3: for the `safe=True` module with spec
`NdBoundedTensorSpec(-ones(3), ones(3))`, every component of the
`action` entry lies in `[-1, 1]`, for every input observation (including
scaled ones): the raw linear output is projected into the set rather
than returned or raising an error. -/
theorem safeModule_action_within_bounds
    (W : List (List Rat)) (b : List Rat) (obs : List Rat) (y : Rat)
    (hy : y ∈ safeModuleAction pendulumSpec W b obs) :
    -1 ≤ y ∧ y ≤ 1 := by
  unfold safeModuleAction NdBoundedTensorSpec.project at hy
  rcases List.mem_map.mp hy with ⟨⟨⟨lo, hi⟩, v⟩, hp, rfl⟩
  have h1 := List.of_mem_zip hp
  have h2 := List.of_mem_zip h1.1
  simp only [pendulumSpec] at h2
  have hlow : lo = -1 := List.eq_of_mem_replicate h2.1
  have hhigh : hi = 1 := List.eq_of_mem_replicate h2.2
  subst hlow; subst hhigh
  exact ⟨le_max_left _ _, max_le (by norm_num) (min_le_left _ _)⟩

/-- Witness for C3 at a concrete input: through the 3×5 weight matrix
with identity left block and zero bias, the scaled observation
`(100, 200, -300, 0, 5)` has raw linear output `(100, 200, -300)`, and
the projected component `1` of the action is in bounds. -/
theorem safeModule_action_within_bounds_witness :
    -1 ≤ (1 : Rat) ∧ (1 : Rat) ≤ 1 :=
  safeModule_action_within_bounds
    [[1, 0, 0, 0, 0], [0, 1, 0, 0, 0], [0, 0, 1, 0, 0]] [0, 0, 0]
    [100, 200, -300, 0, 5] 1 (by
      have hout : safeModuleAction pendulumSpec
          [[1, 0, 0, 0, 0], [0, 1, 0, 0, 0], [0, 0, 1, 0, 0]] [0, 0, 0]
          [100, 200, -300, 0, 5] = [1, 1, -1] := by
        norm_num [safeModuleAction, pendulumSpec, NdBoundedTensorSpec.project,
          linearForward, dot, List.replicate_succ]
      rw [hout]
      norm_num)

/-- Modelled from the spec: a deterministic environment (the library's
`GymEnv("Pendulum-v1")` after `torch.manual_seed(0)` and
`env.set_seed(0)`), absent from `src/`.  Seeding makes `reset`, `step`
and the policy deterministic, so they are plain functions: `reset`
yields the initial internal state and tensordict, `step` consumes the
tensordict holding the action and yields the next internal state and the
recorded transition tensordict, `done` is `env.is_done`, and `stepMdp`
is `torchrl.envs.utils.step_mdp` (roughly `obs = next_obs`). -/
structure DetEnv (S T : Type) where
  reset : S × T
  step : S → T → S × T
  done : S → Bool
  stepMdp : T → T

/-- The list-append rollout loop of lines 440-449: apply the policy,
step, record `env.step`'s output, advance with `step_mdp`, and stop
early when the environment is done. -/
def rolloutTrace {S T : Type} (E : DetEnv S T) (pol : T → T) : Nat → S → T → List T
  | 0, _, _ => []
  | Nat.succ n, s, td =>
    let out := E.step s (pol td)
    out.2 :: (if E.done out.1 then [] else rolloutTrace E pol n out.1 (E.stepMdp out.2))

/-- The value `tensordicts_stack` (lines 440-449): reset, run the loop, stack the
appended list. -/
def tdStack {S T : Type} (E : DetEnv S T) (pol : T → T) (maxSteps : Nat) : List T :=
  rolloutTrace E pol maxSteps E.reset.1 E.reset.2

/-- The preallocating rollout loop of lines 420-428: the same loop, but
writing step `i` into slot `i` of a preallocated container. -/
def preallocLoop {S T : Type} (E : DetEnv S T) (pol : T → T) :
    Nat → Nat → S → T → List T → List T
  | 0, _, _, _, arr => arr
  | Nat.succ n, i, s, td, arr =>
    let out := E.step s (pol td)
    let arr1 := arr.set i out.2
    if E.done out.1 then arr1
    else preallocLoop E pol n (i + 1) out.1 (E.stepMdp out.2) arr1

/-- The value `tensordicts_prealloc` (lines 420-430): a container of `maxSteps`
default slots (`TensorDict({}, [max_steps])`), filled by the loop. -/
def tdPrealloc {S T : Type} (E : DetEnv S T) (pol : T → T) (maxSteps : Nat) (d : T) :
    List T :=
  preallocLoop E pol maxSteps 0 E.reset.1 E.reset.2 (List.replicate maxSteps d)

/-- Holds (`true`) when the environment never reports `is_done` during `n`
policy-step iterations from state `s` and tensordict `td` (Pendulum-v1
does not terminate within 100 steps of a 200-step episode). -/
def neverDone {S T : Type} (E : DetEnv S T) (pol : T → T) : Nat → S → T → Bool
  | 0, _, _ => true
  | Nat.succ n, s, td =>
    let out := E.step s (pol td)
    !E.done out.1 && neverDone E pol n out.1 (E.stepMdp out.2)

/-- Modelled from the spec: the library's
`env.rollout(policy=actor, max_steps=max_steps)` helper (line 462),
absent from `src/`: it resets the environment, then repeatedly applies
the policy and steps, accumulating at most `max_steps` transition
tensordicts and stopping early when the environment is done. -/
def rolloutAux {S T : Type} (E : DetEnv S T) (pol : T → T) :
    Nat → S → T → List T → List T
  | 0, _, _, acc => acc.reverse
  | Nat.succ n, s, td, acc =>
    let out := E.step s (pol td)
    if E.done out.1 then (out.2 :: acc).reverse
    else rolloutAux E pol n out.1 (E.stepMdp out.2) (out.2 :: acc)

/-- The value `tensordict_rollout` (line 462). -/
def envRollout {S T : Type} (E : DetEnv S T) (pol : T → T) (maxSteps : Nat) : List T :=
  rolloutAux E pol maxSteps E.reset.1 E.reset.2 []

theorem rolloutAux_eq {S T : Type} (E : DetEnv S T) (pol : T → T) :
    ∀ (n : Nat) (s : S) (td : T) (acc : List T),
      rolloutAux E pol n s td acc = acc.reverse ++ rolloutTrace E pol n s td := by
  intro n
  induction n with
  | zero => intro s td acc; simp [rolloutAux, rolloutTrace]
  | succ n ih =>
    intro s td acc
    simp only [rolloutAux, rolloutTrace]
    by_cases h : E.done (E.step s (pol td)).1
    · simp [h]
    · simp [h, ih]

theorem take_set_succ {α : Type} (v : α) :
    ∀ (l : List α) (i : Nat), i < l.length →
      (l.set i v).take (i + 1) = l.take i ++ [v] := by
  intro l
  induction l with
  | nil => intro i h; simp at h
  | cons a l ih =>
    intro i h
    cases i with
    | zero => simp
    | succ i =>
      simp only [List.set_cons_succ, List.take_succ_cons, List.cons_append]
      rw [ih i (by simpa using h)]

theorem preallocLoop_eq {S T : Type} (E : DetEnv S T) (pol : T → T) :
    ∀ (n i : Nat) (s : S) (td : T) (arr : List T),
      neverDone E pol n s td = true → arr.length = i + n →
      preallocLoop E pol n i s td arr = arr.take i ++ rolloutTrace E pol n s td := by
  intro n
  induction n with
  | zero =>
    intro i s td arr _ hlen
    simp only [preallocLoop, rolloutTrace, List.append_nil]
    rw [show i = arr.length by omega, List.take_length]
  | succ n ih =>
    intro i s td arr hnd hlen
    simp only [neverDone, Bool.and_eq_true, Bool.not_eq_true'] at hnd
    have hset : (arr.set i (E.step s (pol td)).2).length = (i + 1) + n := by
      simp only [List.length_set]
      omega
    simp only [preallocLoop, rolloutTrace, hnd.1, Bool.false_eq_true, if_false]
    rw [ih (i + 1) _ _ _ hnd.2 hset]
    rw [take_set_succ _ arr i (by omega)]
    simp

/-- Claim C2: after seeding, the preallocated-write rollout loop, the
append-and-stack rollout loop, and the library's `env.rollout` helper
produce elementwise-equal results, whenever the environment does not
terminate within `maxSteps` steps (as Pendulum-v1 does not within 100). -/
theorem rollout_three_ways_agree {S T : Type} (E : DetEnv S T) (pol : T → T)
    (maxSteps : Nat) (d : T)
    (h : neverDone E pol maxSteps E.reset.1 E.reset.2 = true) :
    tdPrealloc E pol maxSteps d = tdStack E pol maxSteps ∧
    tdStack E pol maxSteps = envRollout E pol maxSteps := by
  constructor
  · unfold tdPrealloc tdStack
    rw [preallocLoop_eq E pol maxSteps 0 _ _ _ h (by simp)]
    simp
  · unfold tdStack envRollout
    rw [rolloutAux_eq]
    simp

/-- A concrete deterministic never-terminating environment for the C2
witness: the state counts steps and each transition increments the
tensordict value. -/
def demoEnv : DetEnv Nat Int :=
  ⟨(0, 0), fun s td => (s + 1, td + 1), fun _ => false, id⟩

/-- Witness for C2: on `demoEnv` with the identity policy and three
steps, the three rollout implementations agree. -/
theorem rollout_three_ways_agree_witness :
    tdPrealloc demoEnv id 3 0 = tdStack demoEnv id 3 ∧
    tdStack demoEnv id 3 = envRollout demoEnv id 3 :=
  rollout_three_ways_agree demoEnv id 3 0 (by decide)

/-- Modelled from the spec: a multi-process data collector
(`MultiSyncDataCollector` / `MultiaSyncDataCollector`, lines 489-524),
absent from `src/`: iterating it yields batches of `frames_per_batch`
frames until `total_frames` frames have been delivered.  The first
argument is `frames_per_batch`, the second the fuel, the third the
frames still to deliver. -/
def collectorBatchesAux (per : Nat) : Nat → Nat → List Nat
  | 0, _ => []
  | Nat.succ fuel, remaining =>
    if remaining = 0 then []
    else min per remaining :: collectorBatchesAux per fuel (remaining - per)

/-- The batch sizes yielded by a collector configured with `total`
total frames and `per` frames per batch (fuel `total` suffices since
each yielded batch delivers at least one frame when `per ≥ 1`). -/
def collectorBatches (total per : Nat) : List Nat :=
  collectorBatchesAux per total total

theorem rolloutTrace_length_le {S T : Type} (E : DetEnv S T) (pol : T → T) :
    ∀ (n : Nat) (s : S) (td : T), (rolloutTrace E pol n s td).length ≤ n := by
  intro n
  induction n with
  | zero => intro s td; simp [rolloutTrace]
  | succ n ih =>
    intro s td
    simp only [rolloutTrace, List.length_cons]
    by_cases h : E.done (E.step s (pol td)).1
    · simp [h]
    · simp only [h, Bool.false_eq_true, if_false]
      exact Nat.succ_le_succ (ih _ _)

/-- Claim C4: every loop in the script is bounded.  The rollout loops
(either variant records a prefix of `rolloutTrace`) run at most
`max_steps = 100` iterations, and each collector loop yields exactly
`total_frames / frames_per_batch = 240 / 60 = 4` batches. -/
theorem script_loops_bounded :
    (∀ (S T : Type) (E : DetEnv S T) (pol : T → T) (s : S) (td : T),
      (rolloutTrace E pol 100 s td).length ≤ 100) ∧
    (collectorBatches 240 60).length = 240 / 60 ∧ 240 / 60 = 4 := by
  refine ⟨fun S T E pol s td => rolloutTrace_length_le E pol 100 s td, ?_, by norm_num⟩
  rfl

/-- The sequential, handler-free semantics of the script: a
straight-line program is a list of statements, each a state transformer
that may fail; the file contains no `try`/`except`, so statements run in
order and the first failure aborts the rest. -/
def runScript {σ ε : Type} : List (σ → Except ε σ) → σ → Except ε σ
  | [], s => Except.ok s
  | op :: ops, s =>
    match op s with
    | Except.error e => Except.error e
    | Except.ok s1 => runScript ops s1

/-- Claim C5: the script contains no failure handling: if a statement
fails after a successful prefix, the failure propagates unchanged to
the caller (the result is exactly that error) and no later statement or
recovery branch runs. -/
theorem runScript_error_propagates {σ ε : Type}
    (ops1 ops2 : List (σ → Except ε σ)) (op : σ → Except ε σ)
    (s s1 : σ) (e : ε)
    (hpre : runScript ops1 s = Except.ok s1) (hop : op s1 = Except.error e) :
    runScript (ops1 ++ op :: ops2) s = Except.error e := by
  induction ops1 generalizing s with
  | nil =>
    simp only [runScript] at hpre
    cases hpre
    simp [runScript, hop]
  | cons o ops ih =>
    simp only [List.cons_append, runScript] at hpre ⊢
    cases h0 : o s with
    | error e0 => rw [h0] at hpre; cases hpre
    | ok s2 => rw [h0] at hpre; exact ih s2 hpre

/-- Witness for C5: a two-statement prefix succeeds, the third statement
fails with error `7`, and the whole script returns exactly `Except.error
7` without running the final statement. -/
theorem runScript_error_propagates_witness :
    runScript
      ([fun (s : Nat) => Except.ok (s + 1), fun (s : Nat) => Except.ok (s * 2)] ++
        (fun (_ : Nat) => (Except.error 7 : Except Nat Nat)) ::
          [fun (s : Nat) => Except.ok (s + 5)]) 0 = Except.error 7 :=
  runScript_error_propagates
    [fun (s : Nat) => Except.ok (s + 1), fun (s : Nat) => Except.ok (s * 2)]
    [fun (s : Nat) => Except.ok (s + 5)]
    (fun (_ : Nat) => (Except.error 7 : Except Nat Nat)) 0 2 7 rfl rfl

/-- The state of the script's `TensorDictPrioritizedReplayBuffer`
(line 155) as the claims need it: stored elements and the internal
`_sum_tree` priorities (the leading underscore is dropped). -/
structure PrioBuffer (α : Type) where
  storage : List α
  sum_tree : List Rat

/-- Modelled from the spec: `rb.update_priority` (line 167), the library
call through which priorities are modified, absent from `src/`: it
writes the given priority at the given index of the sum tree and leaves
the storage alone. -/
def updatePriority {α : Type} (rb : PrioBuffer α) (idx : Nat) (p : Rat) : PrioBuffer α :=
  ⟨rb.storage, rb.sum_tree.set idx p⟩

/-- The body of the loop of lines 169-172: `enumerate(rb._sum_tree)`,
print each `(i, val)`, and break after printing index `len(rb)`. -/
def sumTreeIter {α : Type} : List α → Nat → Nat → List (Nat × α)
  | [], _, _ => []
  | v :: rest, i, stop =>
    (i, v) :: (if i = stop then [] else sumTreeIter rest (i + 1) stop)

/-- The printing loop of lines 169-172 as a state transformer on the
buffer: the loop body contains only a `print` and a `break`, no write
to the tree, so the buffer passes through unchanged next to the printed
output. -/
def printSumTree {α : Type} (rb : PrioBuffer α) : List (Nat × Rat) × PrioBuffer α :=
  (sumTreeIter rb.sum_tree 0 rb.storage.length, rb)

theorem sumTreeIter_eq_enumFrom {α : Type} (stop : Nat) :
    ∀ (l : List α) (i : Nat), i ≤ stop →
      sumTreeIter l i stop = (l.enumFrom i).take (stop + 1 - i) := by
  intro l
  induction l with
  | nil => intro i _; simp [sumTreeIter]
  | cons v rest ih =>
    intro i hi
    have h1 : stop + 1 - i = (stop - i) + 1 := by omega
    simp only [sumTreeIter, List.enumFrom, h1, List.take_succ_cons]
    by_cases h : i = stop
    · simp [h]
    · have h2 : stop - i = stop + 1 - (i + 1) := by omega
      simp only [h, if_false]
      rw [ih (i + 1) (by omega), h2]

/-- Claim C6: the script never directly mutates the prioritized replay
buffer's sum tree: the only access is the printing loop, which leaves
the buffer (in particular the sum tree) unchanged and outputs exactly
the first `len(rb) + 1` enumerated entries of the tree; priority
modification, `update_priority`, touches the tree only, not the
storage. -/
theorem sumTree_print_loop_read_only {α : Type} (rb : PrioBuffer α) :
    (printSumTree rb).2 = rb ∧
    (printSumTree rb).1 = rb.sum_tree.enum.take (rb.storage.length + 1) ∧
    (∀ (idx : Nat) (p : Rat), (updatePriority rb idx p).storage = rb.storage) := by
  refine ⟨rfl, ?_, fun idx p => rfl⟩
  show sumTreeIter rb.sum_tree 0 rb.storage.length =
    rb.sum_tree.enum.take (rb.storage.length + 1)
  rw [sumTreeIter_eq_enumFrom rb.storage.length rb.sum_tree 0 (Nat.zero_le _)]
  rfl

/-- The six public-API families the spec enumerates. -/
inductive APIFamily
  | tensorContainer
  | replayBuffer
  | envWrapper
  | nnModule
  | dataCollector
  | lossFunction
deriving DecidableEq, Fintype

/-- A call the script makes into the external library: the constructor
name as written in the source, and the API family it belongs to. -/
structure LibCall where
  cname : String
  family : APIFamily
deriving DecidableEq

/-- The library constructors the script invokes, in source order
(lines 54-549). -/
def scriptCalls : List LibCall :=
  [⟨"TensorDict", APIFamily.tensorContainer⟩,
   ⟨"ReplayBuffer", APIFamily.replayBuffer⟩,
   ⟨"PrioritizedReplayBuffer", APIFamily.replayBuffer⟩,
   ⟨"TensorDictPrioritizedReplayBuffer", APIFamily.replayBuffer⟩,
   ⟨"GymWrapper", APIFamily.envWrapper⟩,
   ⟨"GymEnv", APIFamily.envWrapper⟩,
   ⟨"TransformedEnv", APIFamily.envWrapper⟩,
   ⟨"ParallelEnv", APIFamily.envWrapper⟩,
   ⟨"MLP", APIFamily.nnModule⟩,
   ⟨"ConvNet", APIFamily.nnModule⟩,
   ⟨"TensorDictModule", APIFamily.nnModule⟩,
   ⟨"TensorDictSequential", APIFamily.nnModule⟩,
   ⟨"MultiSyncDataCollector", APIFamily.dataCollector⟩,
   ⟨"MultiaSyncDataCollector", APIFamily.dataCollector⟩,
   ⟨"DDPGLoss", APIFamily.lossFunction⟩]

/-- Claim C7: the script exercises every one of the six named public-API
families: each family has at least one constructor among the script's
library calls. -/
theorem script_covers_all_api_families :
    ∀ fam : APIFamily, ∃ c ∈ scriptCalls, c.family = fam := by
  decide

/-- A statement of the script, classified: a call into the external
library, or a locally implemented process/thread spawn or
synchronization primitive (the latter two do not occur in the file). -/
inductive ScriptStmt
  | libCall (c : LibCall)
  | localSpawn
  | localSync
deriving DecidableEq

/-- Returns `true` exactly on library calls. -/
def ScriptStmt.isLibCall : ScriptStmt → Bool
  | ScriptStmt.libCall _ => true
  | _ => false

/-- The script's statements: every one is a library call (the file
defines no `multiprocessing`, `threading` or lock use of its own). -/
def scriptStmts : List ScriptStmt :=
  scriptCalls.map ScriptStmt.libCall

theorem runScript_append {σ ε : Type} (ops1 ops2 : List (σ → Except ε σ)) :
    ∀ s : σ, runScript (ops1 ++ ops2) s = (runScript ops1 s).bind (runScript ops2) := by
  induction ops1 with
  | nil => intro s; simp [runScript, Except.bind]
  | cons o ops ih =>
    intro s
    simp only [List.cons_append, runScript]
    cases h0 : o s with
    | error e => simp [Except.bind]
    | ok s1 => exact ih s1

/-- Claim C8: all concurrency is delegated to the dependency: every
statement of the script is a library call (it spawns no process or
thread and defines no synchronization itself), and the script's own
semantics are those of a sequential program: running a concatenation of
statement lists is running the first then, on success, the second. -/
theorem script_is_sequential :
    (∀ st ∈ scriptStmts, st.isLibCall = true) ∧
    (∀ (σ ε : Type) (ops1 ops2 : List (σ → Except ε σ)) (s : σ),
      runScript (ops1 ++ ops2) s = (runScript ops1 s).bind (runScript ops2)) := by
  exact ⟨by decide, fun σ ε ops1 ops2 s => runScript_append ops1 ops2 s⟩

/-- Modelled from the spec: `torchrl.data.ReplayBuffer(100, ...)`
(line 140), absent from `src/`: a bounded buffer of the given capacity.
`add` appends while below capacity and overwrites the slot under a
moving cursor once full; `extend` adds the elements of a batch one at a
time; `len(rb)` is the number of stored elements. -/
structure ReplayBuffer (α : Type) where
  capacity : Nat
  storage : List α
  cursor : Nat

/-- The call `rb.add(x)` (line 141). -/
def ReplayBuffer.add {α : Type} (rb : ReplayBuffer α) (x : α) : ReplayBuffer α :=
  if rb.storage.length < rb.capacity then
    ⟨rb.capacity, rb.storage ++ [x], rb.cursor + 1⟩
  else
    ⟨rb.capacity, rb.storage.set (rb.cursor % rb.capacity) x, rb.cursor + 1⟩

/-- The call `rb.extend(batch)` (line 146). -/
def ReplayBuffer.extend {α : Type} (rb : ReplayBuffer α) (xs : List α) : ReplayBuffer α :=
  xs.foldl ReplayBuffer.add rb

/-- The call `len(rb)` (lines 142, 147). -/
def ReplayBuffer.len {α : Type} (rb : ReplayBuffer α) : Nat :=
  rb.storage.length

/-- An insertion operation on a replay buffer. -/
inductive RBOp (α : Type)
  | add (x : α)
  | extendBatch (xs : List α)

/-- Run a sequence of insertion operations. -/
def applyOps {α : Type} (rb : ReplayBuffer α) : List (RBOp α) → ReplayBuffer α
  | [] => rb
  | RBOp.add x :: ops => applyOps (rb.add x) ops
  | RBOp.extendBatch xs :: ops => applyOps (rb.extend xs) ops

/-- The fresh buffer of line 140: capacity 100, nothing stored. -/
def freshRB (α : Type) : ReplayBuffer α :=
  ⟨100, [], 0⟩

theorem add_preserves_bound {α : Type} (rb : ReplayBuffer α) (x : α)
    (h : rb.len ≤ rb.capacity) :
    (rb.add x).len ≤ (rb.add x).capacity ∧ (rb.add x).capacity = rb.capacity := by
  unfold ReplayBuffer.len at h
  unfold ReplayBuffer.add ReplayBuffer.len
  by_cases hlt : rb.storage.length < rb.capacity
  · simp [hlt]
    omega
  · simp [hlt]
    omega

theorem extend_preserves_bound {α : Type} (xs : List α) :
    ∀ rb : ReplayBuffer α, rb.len ≤ rb.capacity →
      (rb.extend xs).len ≤ (rb.extend xs).capacity ∧
      (rb.extend xs).capacity = rb.capacity := by
  induction xs with
  | nil => intro rb h; exact ⟨h, rfl⟩
  | cons x xs ih =>
    intro rb h
    have hstep := add_preserves_bound rb x h
    have hrec := ih (rb.add x) hstep.1
    refine ⟨hrec.1, ?_⟩
    show ((rb.add x).extend xs).capacity = rb.capacity
    rw [hrec.2, hstep.2]

theorem applyOps_preserves_bound {α : Type} (ops : List (RBOp α)) :
    ∀ rb : ReplayBuffer α, rb.len ≤ rb.capacity →
      (applyOps rb ops).len ≤ (applyOps rb ops).capacity ∧
      (applyOps rb ops).capacity = rb.capacity := by
  induction ops with
  | nil => intro rb h; exact ⟨h, rfl⟩
  | cons op ops ih =>
    intro rb h
    cases op with
    | add x =>
      have hstep := add_preserves_bound rb x h
      have hrec := ih (rb.add x) hstep.1
      exact ⟨hrec.1, by rw [applyOps, hrec.2, hstep.2]⟩
    | extendBatch xs =>
      have hstep := extend_preserves_bound xs rb h
      have hrec := ih (rb.extend xs) hstep.1
      exact ⟨hrec.1, by rw [applyOps, hrec.2, hstep.2]⟩

/-- Claim C9: for a fresh `ReplayBuffer` of capacity 100, `len` is 1
after a single `add`, 3 after a further `extend` with a batch of two,
and for every sequence of `add`/`extend` operations `len` never exceeds
the capacity 100. -/
theorem replayBuffer_len_tracks_insertions (α : Type) (x a b : α)
    (ops : List (RBOp α)) :
    ((freshRB α).add x).len = 1 ∧
    (((freshRB α).add x).extend [a, b]).len = 3 ∧
    (applyOps (freshRB α) ops).len ≤ 100 := by
  refine ⟨rfl, rfl, ?_⟩
  have h := applyOps_preserves_bound ops (freshRB α) (by simp [freshRB, ReplayBuffer.len])
  have hcap : (applyOps (freshRB α) ops).capacity = 100 := h.2
  omega

end TorchRLDemo
